import Mathlib

/-!
Shallow embedding of the fashonhub e-commerce backend (two Express/Node
variants in the repository: `server.js` and the unnamed variant
`part_000`).  Each HTTP handler is a pure function from the request data
and the persisted JSON collections it reads to the HTTP status and the
collections it writes.  JavaScript numbers are modelled by `ℚ`, with
`Option ℚ` where the code can produce `NaN`/`undefined` (a missing form
field parsed with `parseFloat`); JavaScript strings are Lean `String`s;
`undefined` string fields are `Option String`.
-/

namespace Fashonhub

/-- An uploaded multipart file as multer hands it to the route handler:
its stored `filename` and the declared `mimetype`. -/
structure UploadedFile where
  filename : String
  mimetype : String
deriving DecidableEq

/-- Media classification: content type starting with image/ is `image`,
anything else accepted is `video`. -/
inductive MediaType
  | image
  | video
deriving DecidableEq

/-- A stored media reference `{type, url}` (both variants); `server.js`
additionally records the stored file `name`, `part_000` does not, so the
field is optional. -/
structure MediaRef where
  type : MediaType
  url : String
  name : Option String
deriving DecidableEq

/-- A product review `{name, date, rating, comment}`.  No handler under
verification inspects reviews; they are carried through unchanged. -/
structure Review where
  name : String
  date : String
  rating : Int
  comment : String
deriving DecidableEq

/-- A product record as persisted in `products.json`.  `name`,
`category`, `description` are `none` when the creating request omitted
them (JavaScript `undefined`); `price` is `none` when `parseFloat`
returned `NaN` (absent or non-numeric form field). -/
structure Product where
  id : Int
  name : Option String
  price : Option ℚ
  category : Option String
  image : String
  media : List MediaRef
  sizes : List String
  description : Option String
  reviews : List Review
deriving DecidableEq

/-- A cart line item as persisted in `cart.json`: the `(productId, size)`
key plus denormalized snapshot fields copied from the product. -/
structure CartItem where
  productId : Int
  name : Option String
  price : Option ℚ
  image : String
  size : String
  quantity : Int
deriving DecidableEq

/-- JavaScript `s.startsWith(pre)`, modelled on the character list
(Lean's own `String.startsWith` is equivalent but its byte-position
loops do not reduce in the kernel). -/
def jsStartsWith (s pre : String) : Bool :=
  pre.data.isPrefixOf s.data

namespace ServerJs

/-- The `server.js` media-file processing: classify by mimetype prefix and
build `{type, url: /uploads/<filename>, name: <filename>}`. -/
def mediaRefOfFile (f : UploadedFile) : MediaRef :=
  { type := if jsStartsWith f.mimetype ("image/") then MediaType.image else MediaType.video
    url := "/uploads/" ++ f.filename
    name := some f.filename }

/-- Model of `cart.find(item => item.productId === productId && item.size === size)`
followed by `existingItem.quantity += 1`: increment the first matching
line in place; `none` when no line matches. -/
def bumpFirst (productId : Int) (size : String) : List CartItem → Option (List CartItem)
  | [] => none
  | it :: rest =>
    if it.productId == productId && it.size == size then
      some ({ it with quantity := it.quantity + 1 } :: rest)
    else
      (bumpFirst productId size rest).map (fun l => it :: l)

/-- Handler `POST /api/cart` (`server.js` lines 263-297): increment an existing
`(productId, size)` line by 1, or look the product up and append a fresh
line with quantity 1 (404 if the product does not exist).  Returns the
HTTP status and the cart that gets written back. -/
def cartAdd (productId : Int) (size : String) (products : List Product)
    (cart : List CartItem) : Nat × List CartItem :=
  match bumpFirst productId size cart with
  | some cart2 => (200, cart2)
  | none =>
    match products.find? (fun p => p.id == productId) with
    | none => (404, cart)
    | some product =>
      (200, cart ++ [{ productId := productId, name := product.name,
                       price := product.price, image := product.image,
                       size := size, quantity := 1 }])

/-- Model of `item.quantity += change` on the first matching line, then
`if (item.quantity <= 0)` splice the line out (the `findIndex` in the
source finds the same first-matching line the `find` found). -/
def adjustFirst (productId : Int) (size : String) (change : Int) :
    List CartItem → Option (List CartItem)
  | [] => none
  | it :: rest =>
    if it.productId == productId && it.size == size then
      some (if it.quantity + change ≤ 0 then rest
            else { it with quantity := it.quantity + change } :: rest)
    else
      (adjustFirst productId size change rest).map (fun l => it :: l)

/-- Handler `PUT /api/cart/:productId/:size` (`server.js` lines 299-324): add
`change` to the matching line's quantity, removing the line when the
result is ≤ 0; 404 when no line matches. -/
def cartAdjust (productId : Int) (size : String) (change : Int)
    (cart : List CartItem) : Nat × List CartItem :=
  match adjustFirst productId size change cart with
  | none => (404, cart)
  | some cart2 => (200, cart2)

end ServerJs

/-- One cart-mutating request.  An `add` carries the product catalog as
it stands when the request runs (the catalog may change between
requests); an `adjust` carries the signed integer `change` from the
request body. -/
inductive CartOp
  | add (products : List Product) (productId : Int) (size : String)
  | adjust (productId : Int) (size : String) (change : Int)

namespace ServerJs

/-- The cart persisted after one cart request: the second component of
the corresponding handler's result. -/
def cartStep (cart : List CartItem) : CartOp → List CartItem
  | CartOp.add products pid sz => (cartAdd pid sz products cart).2
  | CartOp.adjust pid sz ch => (cartAdjust pid sz ch cart).2

/-- The cart persisted after a whole sequence of cart requests run from
the empty cart. -/
def runCart (ops : List CartOp) : List CartItem :=
  ops.foldl cartStep []

end ServerJs


/-- The multipart form fields of a product create/update request.  A
field is `none` when absent from the request (JavaScript `undefined`);
`price` is `none` when absent or when `parseFloat` would yield `NaN`. -/
structure ProductBody where
  name : Option String
  price : Option ℚ
  category : Option String
  sizes : Option String
  description : Option String
deriving DecidableEq

/-- JavaScript `v || dflt` on a possibly-undefined string: `undefined`
and the empty string are falsy, any other string is kept. -/
def jsOr (v : Option String) (dflt : Option String) : Option String :=
  match v with
  | some s => if s = "" then dflt else some s
  | none => dflt

/-- Model of `sizes ? sizes.split(',').map(s => s.trim()) : dflt` — the comma
split with trimming when the field is truthy, the default otherwise. -/
def processSizes (sizes : Option String) (dflt : List String) : List String :=
  match sizes with
  | some s => if s = "" then dflt else (s.splitOn (",")).map String.trim
  | none => dflt

/-- Model of `products.findIndex(...)` followed by in-place assignment of the
first matching record, as one recursive pass; `none` when no record
matches (the handlers' 404 path). -/
def updateFirst (pred : Product → Bool) (f : Product → Product) :
    List Product → Option (List Product)
  | [] => none
  | p :: ps =>
    if pred p then some (f p :: ps)
    else (updateFirst pred f ps).map (fun l => p :: l)

namespace ServerJs

/-- The product record built by `POST /api/products` (`server.js` lines
123-169): default sizes S,M,L; media refs from the uploaded files;
`image` from the first media url or the placeholder; `reviews` empty. -/
def newProduct (now : Int) (body : ProductBody) (files : List UploadedFile) : Product :=
  { id := now
    name := body.name
    price := body.price
    category := body.category
    image := match files.map mediaRefOfFile with
             | [] => "/img/placeholder.jpg"
             | m :: _ => m.url
    media := files.map mediaRefOfFile
    sizes := processSizes body.sizes (["S", "M", "L"])
    description := body.description
    reviews := [] }

/-- Handler `POST /api/products`: no validation — always append the new product
and answer 201. -/
def postProduct (now : Int) (body : ProductBody) (files : List UploadedFile)
    (products : List Product) : Nat × List Product :=
  (201, products ++ [newProduct now body files])

/-- The updated record built by `PUT /api/products/:id` (`server.js`
lines 172-224) for the matched product `old`: falsy request fields keep
the stored value, uploaded files are APPENDED to the existing media list
(the source comment reads "If new media files were uploaded, add them to
the existing ones"), and `image` is recomputed from the combined list. -/
def updatedProduct (body : ProductBody) (files : List UploadedFile)
    (old : Product) : Product :=
  { old with
    name := jsOr body.name old.name
    price := match body.price with
             | some q => some q
             | none => old.price
    category := jsOr body.category old.category
    sizes := processSizes body.sizes old.sizes
    description := jsOr body.description old.description
    image := match old.media ++ files.map mediaRefOfFile with
             | [] => old.image
             | m :: _ => m.url
    media := old.media ++ files.map mediaRefOfFile }

/-- Handler `PUT /api/products/:id`: 404 when no product has the given id,
otherwise replace the first matching record and answer 200. -/
def putProduct (idParam : Int) (body : ProductBody) (files : List UploadedFile)
    (products : List Product) : Nat × List Product :=
  match updateFirst (fun p => p.id == idParam) (updatedProduct body files) products with
  | none => (404, products)
  | some l => (200, l)

end ServerJs

namespace Part000

/-- The `part_000` media-file processing: `{type, url}` only. -/
def mediaRefOfFile (f : UploadedFile) : MediaRef :=
  { type := if jsStartsWith f.mimetype ("image/") then MediaType.image else MediaType.video
    url := "/uploads/" ++ f.filename
    name := none }

/-- The product record built by `part_000`'s `POST /api/products` (lines
75-114): like `server.js` but `image` defaults to the EMPTY string when
no files are uploaded. -/
def newProduct (now : Int) (body : ProductBody) (files : List UploadedFile) : Product :=
  { id := now
    name := body.name
    price := body.price
    category := body.category
    image := match files.map mediaRefOfFile with
             | [] => ""
             | m :: _ => m.url
    media := files.map mediaRefOfFile
    sizes := processSizes body.sizes (["S", "M", "L"])
    description := body.description
    reviews := [] }

/-- Handler `POST /api/products` of `part_000`: no validation — always append. -/
def postProduct (now : Int) (body : ProductBody) (files : List UploadedFile)
    (products : List Product) : Nat × List Product :=
  (201, products ++ [newProduct now body files])

/-- The updated record built by `part_000`'s `PUT /api/products/:id`
(lines 117-162): `name`/`price`/`category`/`description` are overwritten
with the raw request values (undefined included), `sizes` resets to the
S,M,L default when absent, and the conditional spread
`...(mediaFiles.length > 0 && {image, media})` REPLACES image and media
only when files were uploaded. -/
def updatedProduct (body : ProductBody) (files : List UploadedFile)
    (old : Product) : Product :=
  match files.map mediaRefOfFile with
  | [] =>
    { old with
      name := body.name
      price := body.price
      category := body.category
      sizes := processSizes body.sizes (["S", "M", "L"])
      description := body.description }
  | m :: rest =>
    { old with
      name := body.name
      price := body.price
      category := body.category
      sizes := processSizes body.sizes (["S", "M", "L"])
      description := body.description
      image := m.url
      media := m :: rest }

/-- Handler `PUT /api/products/:id` of `part_000`: 404 when no product matches,
otherwise replace the first matching record and answer 200. -/
def putProduct (idParam : Int) (body : ProductBody) (files : List UploadedFile)
    (products : List Product) : Nat × List Product :=
  match updateFirst (fun p => p.id == idParam) (updatedProduct body files) products with
  | none => (404, products)
  | some l => (200, l)

end Part000


/-- NaN-propagating addition on JavaScript numbers (`none` = `NaN`). -/
def numAdd : Option ℚ → Option ℚ → Option ℚ
  | some a, some b => some (a + b)
  | _, _ => none

/-- NaN-propagating multiplication on JavaScript numbers. -/
def numMul : Option ℚ → Option ℚ → Option ℚ
  | some a, some b => some (a * b)
  | _, _ => none

/-- The `payment` object of an order request body (all fields present:
the handler dereferences them unconditionally). -/
structure PaymentIn where
  cardName : String
  cardNumber : String
  expiry : String
deriving DecidableEq

/-- The redacted payment object persisted inside an order. -/
structure OrderPayment where
  cardName : String
  cardNumber : String
  expiry : String
deriving DecidableEq

/-- The `totals` object of an order.  `shipping` is always a plain
number (`NaN > 0` is false in JavaScript, so the NaN branch picks 0);
the others inherit `NaN` from any `NaN` item price. -/
structure Totals where
  subtotal : Option ℚ
  shipping : ℚ
  tax : Option ℚ
  total : Option ℚ
deriving DecidableEq

/-- An order record as persisted in `orders.json`. -/
structure Order where
  id : String
  date : String
  customer : String
  items : List CartItem
  payment : OrderPayment
  totals : Totals
  status : String
deriving DecidableEq

/-- One `writeData` call issued by a handler, in program order. -/
inductive StoreWrite
  | orders (data : List Order)
  | cart (data : List CartItem)
deriving DecidableEq

/-- The full observable outcome of `POST /api/orders`: HTTP status, the
response `message`, the sequence of `writeData` calls in the order the
handler issues them, and the created order (if any). -/
structure OrderResult where
  status : Nat
  message : String
  writes : List StoreWrite
  order : Option Order
deriving DecidableEq

/-- JavaScript `s.slice(-4)`: the suffix starting at character index
`max(length - 4, 0)` — the last 4 characters, or all of a shorter
string. -/
def jsSliceLast4 (s : String) : String :=
  String.mk (s.data.drop (s.data.length - 4))

namespace ServerJs

/-- Totals from `server.js` lines 362-366: `subtotal` folds `price * quantity` over
the cart starting from 0; `shipping = subtotal > 0 ? 5.99 : 0`;
`tax = subtotal * 0.08`; `total = subtotal + shipping + tax`. -/
def orderTotals (cart : List CartItem) : Totals :=
  let subtotal := cart.foldl
    (fun t it => numAdd t (numMul it.price (some (it.quantity : ℚ)))) (some 0)
  let shipping : ℚ := match subtotal with
    | some s => if 0 < s then 599 / 100 else 0
    | none => 0
  { subtotal := subtotal
    shipping := shipping
    tax := numMul subtotal (some (8 / 100))
    total := numAdd (numAdd subtotal (some shipping)) (numMul subtotal (some (8 / 100))) }

/-- The order record built by `POST /api/orders` (`server.js` lines
353-397): id `ORD-` + timestamp, a snapshot copy `[...cart]` of the
cart, the payment with `cardNumber.slice(-4)`, the computed totals, and
status Processing. -/
def newOrder (now : Int) (dateIso : String) (customer : String)
    (payment : PaymentIn) (cart : List CartItem) : Order :=
  { id := "ORD-" ++ toString now
    date := dateIso
    customer := customer
    items := cart
    payment := { cardName := payment.cardName
                 cardNumber := jsSliceLast4 payment.cardNumber
                 expiry := payment.expiry }
    totals := orderTotals cart
    status := "Processing" }

/-- Handler `POST /api/orders`: 400 "Cart is empty" with no writes when the cart
read at submission time is empty; otherwise write the appended orders
collection, then write the empty cart, and answer 201. -/
def postOrder (now : Int) (dateIso : String) (customer : String)
    (payment : PaymentIn) (orders : List Order) (cart : List CartItem) : OrderResult :=
  if cart.length == 0 then
    { status := 400, message := "Cart is empty", writes := [], order := none }
  else
    { status := 201
      message := "Order placed successfully"
      writes := [StoreWrite.orders (orders ++ [newOrder now dateIso customer payment cart]),
                 StoreWrite.cart []]
      order := some (newOrder now dateIso customer payment cart) }

end ServerJs

/-- The image/media invariant of §3 of the spec, parameterized by the
default image value a variant uses for a product with no media: `image`
is `media[0].url` when `media` is non-empty, the default otherwise. -/
def expectedImage (placeholder : String) (p : Product) : String :=
  match p.media with
  | [] => placeholder
  | m :: _ => m.url

/-- Predicate: `image` equals `media[0].url` whenever `media` is non-empty, and the
given default value whenever `media` is empty. -/
abbrev imageInv (placeholder : String) (p : Product) : Prop :=
  p.image = expectedImage placeholder p

/-- The specification formula for the order subtotal: the sum over cart
items of price × quantity (stated over numeric prices). -/
def listSubtotal (cart : List CartItem) : ℚ :=
  (cart.map (fun it => it.price.getD 0 * (it.quantity : ℚ))).sum

/-- A request body with every form field absent. -/
def emptyBody : ProductBody :=
  { name := none, price := none, category := none, sizes := none, description := none }

/-- Sample inputs used to instantiate the claim theorems. -/
def samplePayment : PaymentIn :=
  { cardName := "Ada Lovelace", cardNumber := "4111111111111111", expiry := "12/30" }

def shortPayment : PaymentIn :=
  { cardName := "Ada Lovelace", cardNumber := "123", expiry := "12/30" }

def sampleItem : CartItem :=
  { productId := 1, name := some ("Tee"), price := some 10,
    image := "/img/placeholder.jpg", size := "M", quantity := 2 }

def exampleCart : List CartItem :=
  [{ productId := 1, name := some ("Tee"), price := some 10,
     image := "/img/placeholder.jpg", size := "M", quantity := 2 },
   { productId := 2, name := some ("Cap"), price := some 5,
     image := "/img/placeholder.jpg", size := "L", quantity := 1 }]

def sampleCatalog : List Product :=
  [{ id := 1, name := some ("Tee"), price := some 10, category := some ("men"),
     image := "/img/placeholder.jpg", media := [], sizes := ["S", "M", "L"],
     description := none, reviews := [] }]

def sampleMedia : MediaRef :=
  { type := MediaType.image, url := "/uploads/old.jpg", name := some ("old.jpg") }

def sampleUpload : UploadedFile :=
  { filename := "new.jpg", mimetype := "image/jpeg" }

def prodWithMedia : Product :=
  { id := 7, name := some ("Tee"), price := some 10, category := some ("men"),
    image := "/uploads/old.jpg", media := [sampleMedia], sizes := ["S"],
    description := none, reviews := [] }

def prodOther : Product :=
  { id := 8, name := some ("Cap"), price := some 5, category := some ("men"),
    image := "/img/placeholder.jpg", media := [], sizes := ["S"],
    description := none, reviews := [] }

end Fashonhub

namespace Fashonhub

namespace ServerJs

theorem bumpFirst_pos (productId : Int) (size : String) :
    ∀ (cart cart' : List CartItem), bumpFirst productId size cart = some cart' →
      (∀ it ∈ cart, 0 < it.quantity) → ∀ it ∈ cart', 0 < it.quantity := by
  intro cart
  induction cart with
  | nil => intro cart' h; simp [bumpFirst] at h
  | cons hd tl ih =>
    intro cart' h hpos
    rw [bumpFirst] at h
    by_cases hmatch : (hd.productId == productId && hd.size == size) = true
    · rw [if_pos hmatch] at h
      obtain rfl := Option.some.inj h
      intro it hit
      rcases List.mem_cons.mp hit with h1 | h2
      · subst h1
        have h0 := hpos hd (List.mem_cons_self hd tl)
        show 0 < hd.quantity + 1
        omega
      · exact hpos it (List.mem_cons_of_mem hd h2)
    · rw [if_neg hmatch] at h
      cases hb : bumpFirst productId size tl with
      | none => rw [hb] at h; simp at h
      | some l =>
        rw [hb, Option.map_some'] at h
        obtain rfl := Option.some.inj h
        intro it hit
        rcases List.mem_cons.mp hit with h1 | h2
        · subst h1; exact hpos it (List.mem_cons_self it tl)
        · exact ih l hb (fun x hx => hpos x (List.mem_cons_of_mem hd hx)) it h2

theorem adjustFirst_pos (productId : Int) (size : String) (change : Int) :
    ∀ (cart cart' : List CartItem), adjustFirst productId size change cart = some cart' →
      (∀ it ∈ cart, 0 < it.quantity) → ∀ it ∈ cart', 0 < it.quantity := by
  intro cart
  induction cart with
  | nil => intro cart' h; simp [adjustFirst] at h
  | cons hd tl ih =>
    intro cart' h hpos
    rw [adjustFirst] at h
    by_cases hmatch : (hd.productId == productId && hd.size == size) = true
    · rw [if_pos hmatch] at h
      obtain rfl := Option.some.inj h
      by_cases hq : hd.quantity + change ≤ 0
      · rw [if_pos hq]
        intro it hit
        exact hpos it (List.mem_cons_of_mem hd hit)
      · rw [if_neg hq]
        intro it hit
        rcases List.mem_cons.mp hit with h1 | h2
        · subst h1
          show 0 < hd.quantity + change
          omega
        · exact hpos it (List.mem_cons_of_mem hd h2)
    · rw [if_neg hmatch] at h
      cases ha : adjustFirst productId size change tl with
      | none => rw [ha] at h; simp at h
      | some l =>
        rw [ha, Option.map_some'] at h
        obtain rfl := Option.some.inj h
        intro it hit
        rcases List.mem_cons.mp hit with h1 | h2
        · subst h1; exact hpos it (List.mem_cons_self it tl)
        · exact ih l ha (fun x hx => hpos x (List.mem_cons_of_mem hd hx)) it h2

theorem cartStep_pos (cart : List CartItem) (op : CartOp)
    (hpos : ∀ it ∈ cart, 0 < it.quantity) :
    ∀ it ∈ cartStep cart op, 0 < it.quantity := by
  cases op with
  | add products pid sz =>
    simp only [cartStep, cartAdd]
    cases hb : bumpFirst pid sz cart with
    | some cart2 =>
      exact bumpFirst_pos pid sz cart cart2 hb hpos
    | none =>
      cases hf : products.find? (fun p => p.id == pid) with
      | none => exact hpos
      | some product =>
        intro it hit
        rcases List.mem_append.mp hit with h1 | h2
        · exact hpos it h1
        · rcases List.mem_singleton.mp h2 with rfl
          simp only []
          omega
  | adjust pid sz ch =>
    simp only [cartStep, cartAdjust]
    cases ha : adjustFirst pid sz ch cart with
    | none => exact hpos
    | some cart2 =>
      exact adjustFirst_pos pid sz ch cart cart2 ha hpos

theorem runCart_aux :
    ∀ (ops : List CartOp) (cart : List CartItem),
      (∀ it ∈ cart, 0 < it.quantity) →
      ∀ it ∈ ops.foldl cartStep cart, 0 < it.quantity := by
  intro ops
  induction ops with
  | nil => intro cart h; simpa using h
  | cons op rest ih =>
    intro cart h
    simp only [List.foldl_cons]
    exact ih (cartStep cart op) (cartStep_pos cart op h)

end ServerJs

/-- C1: starting from the empty cart, after any sequence of `add` and
`adjust` cart requests the persisted cart never contains a line item
with quantity ≤ 0: `add` stores new lines with quantity 1 or increments
an existing line by 1, and `adjust` removes the line whenever the
resulting quantity would be ≤ 0. -/
theorem c1_cart_quantity_positive (ops : List CartOp) :
    ∀ it ∈ ServerJs.runCart ops, 0 < it.quantity :=
  ServerJs.runCart_aux ops [] (by intro it h; simp at h)

/-- Structure of a successful `updateFirst`: the list splits at the
first record satisfying `pred`, and only that record is rewritten. -/
theorem updateFirst_eq_some (pred : Product → Bool) (f : Product → Product) :
    ∀ (l l' : List Product), updateFirst pred f l = some l' →
      ∃ pre x post, l = pre ++ x :: post ∧ l' = pre ++ f x :: post ∧
        pred x = true ∧ ∀ y ∈ pre, pred y = false := by
  intro l
  induction l with
  | nil => intro l' h; simp [updateFirst] at h
  | cons p ps ih =>
    intro l' h
    rw [updateFirst] at h
    by_cases hp : pred p = true
    · rw [if_pos hp] at h
      obtain rfl := Option.some.inj h
      exact ⟨[], p, ps, rfl, rfl, hp, by intro y hy; simp at hy⟩
    · rw [if_neg hp] at h
      cases hu : updateFirst pred f ps with
      | none => rw [hu] at h; simp at h
      | some l0 =>
        rw [hu, Option.map_some'] at h
        obtain rfl := Option.some.inj h
        obtain ⟨pre, x, post, hps, hl0, hx, hpre⟩ := ih l0 hu
        refine ⟨p :: pre, x, post, by rw [hps]; rfl, by rw [hl0]; rfl, hx, ?_⟩
        intro y hy
        rcases List.mem_cons.mp hy with h1 | h2
        · subst h1; exact eq_false_of_ne_true hp
        · exact hpre y h2

theorem c1_witness :
    ({ productId := 1, name := some ("Tee"), price := some 10,
       image := "/img/placeholder.jpg", size := "M", quantity := 1 } : CartItem)
      ∈ ServerJs.runCart [CartOp.add sampleCatalog 1 ("M")] ∧
    0 < ({ productId := 1, name := some ("Tee"), price := some 10,
           image := "/img/placeholder.jpg", size := "M", quantity := 1 } : CartItem).quantity :=
  ⟨by decide, c1_cart_quantity_positive [CartOp.add sampleCatalog 1 ("M")] _ (by decide)⟩

theorem postOrder_order_eq (now : Int) (d c : String) (payment : PaymentIn)
    (orders : List Order) (cart : List CartItem) (o : Order)
    (ho : (ServerJs.postOrder now d c payment orders cart).order = some o) :
    o = ServerJs.newOrder now d c payment cart := by
  cases cart with
  | nil => simp [ServerJs.postOrder] at ho
  | cons a l =>
    have hr : (ServerJs.postOrder now d c payment orders (a :: l)).order
        = some (ServerJs.newOrder now d c payment (a :: l)) := rfl
    rw [hr] at ho
    exact (Option.some.inj ho).symm

theorem jsSliceLast4_of_length_le (s : String) (h : s.length ≤ 4) :
    jsSliceLast4 s = s := by
  have hd : s.data.length = s.length := rfl
  have hz : s.data.length - 4 = 0 := by omega
  show String.mk (s.data.drop (s.data.length - 4)) = s
  rw [hz, List.drop_zero]

theorem jsSliceLast4_ne_of_length_gt (s : String) (h : 4 < s.length) :
    jsSliceLast4 s ≠ s := by
  intro heq
  have hd : s.data.drop (s.data.length - 4) = s.data := congrArg String.data heq
  have hlen := congrArg List.length hd
  rw [List.length_drop] at hlen
  have hds : s.data.length = s.length := rfl
  omega

/-- C2 counterexample: a successful order whose submitted card number
"123" is persisted in full — `payment.cardNumber` of the stored order
equals the entire submitted card number string, so "the full card number
string is never stored" fails as stated. -/
theorem c2_counterexample :
    (ServerJs.postOrder 0 ("d") ("c") shortPayment [] [sampleItem]).order.map
      (fun o => o.payment.cardNumber) = some (shortPayment.cardNumber) := by
  decide

/-- C2 (amended): for every successful placeOrder, the persisted
`payment.cardNumber` equals `cardNumber.slice(-4)` — the last 4
characters, or the whole string when it has at most 4 characters — and
whenever the submitted card number is longer than 4 characters the full
number is not stored. -/
theorem c2_redaction (now : Int) (d c : String) (payment : PaymentIn)
    (orders : List Order) (cart : List CartItem) (o : Order)
    (ho : (ServerJs.postOrder now d c payment orders cart).order = some o) :
    o.payment.cardNumber = jsSliceLast4 payment.cardNumber ∧
    (4 < payment.cardNumber.length → o.payment.cardNumber ≠ payment.cardNumber) := by
  obtain rfl := postOrder_order_eq now d c payment orders cart o ho
  exact ⟨rfl, fun h => jsSliceLast4_ne_of_length_gt payment.cardNumber h⟩

theorem c2_witness :
    ((ServerJs.postOrder 0 ("d") ("c") samplePayment [] [sampleItem]).order
       = some (ServerJs.newOrder 0 ("d") ("c") samplePayment [sampleItem])) ∧
    ((ServerJs.newOrder 0 ("d") ("c") samplePayment [sampleItem]).payment.cardNumber
       = jsSliceLast4 samplePayment.cardNumber ∧
     (4 < samplePayment.cardNumber.length →
       (ServerJs.newOrder 0 ("d") ("c") samplePayment [sampleItem]).payment.cardNumber
         ≠ samplePayment.cardNumber)) ∧
    jsSliceLast4 samplePayment.cardNumber = "1111" :=
  ⟨rfl, c2_redaction 0 ("d") ("c") samplePayment [] [sampleItem]
    (ServerJs.newOrder 0 ("d") ("c") samplePayment [sampleItem]) rfl, by decide⟩

/-- C6: a successful placeOrder on a non-empty cart issues exactly two
writes, in order: first the orders collection with the new order
appended, then the empty cart; the new order's items are the cart read
at submission time; the response is 201. -/
theorem c6_persist_then_clear (now : Int) (dateIso customer : String)
    (payment : PaymentIn) (orders : List Order) (cart : List CartItem)
    (hne : cart ≠ []) :
    (ServerJs.postOrder now dateIso customer payment orders cart).writes =
      [StoreWrite.orders (orders ++ [ServerJs.newOrder now dateIso customer payment cart]),
       StoreWrite.cart []] ∧
    (ServerJs.newOrder now dateIso customer payment cart).items = cart ∧
    (ServerJs.postOrder now dateIso customer payment orders cart).status = 201 := by
  cases cart with
  | nil => exact absurd rfl hne
  | cons a l => exact ⟨rfl, rfl, rfl⟩

theorem c6_witness :
    ([sampleItem] : List CartItem) ≠ [] ∧
    ((ServerJs.postOrder 0 ("d") ("c") samplePayment [] [sampleItem]).writes =
      [StoreWrite.orders ([] ++ [ServerJs.newOrder 0 ("d") ("c") samplePayment [sampleItem]]),
       StoreWrite.cart []] ∧
     (ServerJs.newOrder 0 ("d") ("c") samplePayment [sampleItem]).items = [sampleItem] ∧
     (ServerJs.postOrder 0 ("d") ("c") samplePayment [] [sampleItem]).status = 201) :=
  ⟨by decide, c6_persist_then_clear 0 ("d") ("c") samplePayment [] [sampleItem] (by decide)⟩

/-- C7: placeOrder answers 400 with message "Cart is empty" exactly when
the cart read at submission time is empty, and in that case it issues no
writes at all (neither orders nor cart is modified). -/
theorem c7_empty_cart_iff (now : Int) (dateIso customer : String)
    (payment : PaymentIn) (orders : List Order) (cart : List CartItem) :
    (((ServerJs.postOrder now dateIso customer payment orders cart).status = 400 ∧
      (ServerJs.postOrder now dateIso customer payment orders cart).message = "Cart is empty")
      ↔ cart = []) ∧
    (cart = [] → (ServerJs.postOrder now dateIso customer payment orders cart).writes = []) := by
  cases cart with
  | nil => exact ⟨⟨fun _ => rfl, fun _ => ⟨rfl, rfl⟩⟩, fun _ => rfl⟩
  | cons a l =>
    refine ⟨⟨fun h => ?_, fun h => ?_⟩, fun h => ?_⟩
    · have : (ServerJs.postOrder now dateIso customer payment orders (a :: l)).status = 201 := rfl
      rw [this] at h
      exact absurd h.1 (by decide)
    · exact absurd h (by simp)
    · exact absurd h (by simp)

theorem c7_witness :
    (([] : List CartItem) = []) ∧
    (ServerJs.postOrder 0 ("d") ("c") samplePayment [] []).writes = [] ∧
    (ServerJs.postOrder 0 ("d") ("c") samplePayment [] []).status = 400 ∧
    (ServerJs.postOrder 0 ("d") ("c") samplePayment [] []).message = "Cart is empty" :=
  ⟨rfl, (c7_empty_cart_iff 0 ("d") ("c") samplePayment [] []).2 rfl,
    ((c7_empty_cart_iff 0 ("d") ("c") samplePayment [] []).1.mpr rfl).1,
    ((c7_empty_cart_iff 0 ("d") ("c") samplePayment [] []).1.mpr rfl).2⟩

/-- C9: when the submitted card number has at most 4 characters,
`slice(-4)` keeps the entire string, so the persisted
`payment.cardNumber` equals the whole submitted card number. -/
theorem c9_short_card_kept (now : Int) (d c : String) (payment : PaymentIn)
    (orders : List Order) (cart : List CartItem) (o : Order)
    (ho : (ServerJs.postOrder now d c payment orders cart).order = some o)
    (hlen : payment.cardNumber.length ≤ 4) :
    o.payment.cardNumber = payment.cardNumber := by
  obtain rfl := postOrder_order_eq now d c payment orders cart o ho
  exact jsSliceLast4_of_length_le payment.cardNumber hlen

theorem c9_witness :
    ((ServerJs.postOrder 0 ("d") ("c") shortPayment [] [sampleItem]).order
       = some (ServerJs.newOrder 0 ("d") ("c") shortPayment [sampleItem])) ∧
    shortPayment.cardNumber.length ≤ 4 ∧
    (ServerJs.newOrder 0 ("d") ("c") shortPayment [sampleItem]).payment.cardNumber
      = shortPayment.cardNumber :=
  ⟨rfl, by decide, c9_short_card_kept 0 ("d") ("c") shortPayment [] [sampleItem]
    (ServerJs.newOrder 0 ("d") ("c") shortPayment [sampleItem]) rfl (by decide)⟩

theorem subtotal_foldl :
    ∀ (cart : List CartItem), (∀ it ∈ cart, it.price.isSome) →
      ∀ a : ℚ,
        List.foldl (fun t it => numAdd t (numMul it.price (some (it.quantity : ℚ))))
          (some a) cart = some (a + listSubtotal cart) := by
  intro cart
  induction cart with
  | nil => intro hp a; simp [listSubtotal]
  | cons it rest ih =>
    intro hp a
    obtain ⟨p, hip⟩ := Option.isSome_iff_exists.mp (hp it (List.mem_cons_self it rest))
    rw [List.foldl_cons]
    have h1 : numAdd (some a) (numMul it.price (some (it.quantity : ℚ)))
        = some (a + p * (it.quantity : ℚ)) := by
      rw [hip]; rfl
    rw [h1, ih (fun x hx => hp x (List.mem_cons_of_mem it hx)) (a + p * (it.quantity : ℚ))]
    have h3 : listSubtotal (it :: rest) = p * (it.quantity : ℚ) + listSubtotal rest := by
      rw [listSubtotal, listSubtotal, List.map_cons, List.sum_cons, hip]
      rfl
    rw [h3]
    congr 1
    ring

theorem orderTotals_eq (cart : List CartItem) (s : ℚ)
    (hs : List.foldl (fun t it => numAdd t (numMul it.price (some (it.quantity : ℚ))))
      (some 0) cart = some s) :
    ServerJs.orderTotals cart =
      { subtotal := some s
        shipping := if 0 < s then 599 / 100 else 0
        tax := some (s * (8 / 100))
        total := some (s + (if 0 < s then (599 : ℚ) / 100 else 0) + s * (8 / 100)) } := by
  simp only [ServerJs.orderTotals]
  rw [hs]
  rfl

/-- C3: for every successful placeOrder the persisted totals satisfy the
spec formulas exactly: subtotal is the sum over cart items of
price × quantity, shipping is 5.99 when the subtotal is positive and 0
otherwise, tax is subtotal × 0.08 with no rounding applied, and total is
their sum.  (At the spec's example cart the unrounded tax is exactly 2,
so the stated 2-decimal values agree — see the witness.) -/
theorem c3_totals (now : Int) (d c : String) (payment : PaymentIn)
    (orders : List Order) (cart : List CartItem) (o : Order)
    (hp : ∀ it ∈ cart, it.price.isSome)
    (ho : (ServerJs.postOrder now d c payment orders cart).order = some o) :
    o.totals.subtotal = some (listSubtotal cart) ∧
    o.totals.shipping = (if 0 < listSubtotal cart then (599 : ℚ) / 100 else 0) ∧
    o.totals.tax = some (listSubtotal cart * (8 / 100)) ∧
    o.totals.total = some (listSubtotal cart
      + (if 0 < listSubtotal cart then (599 : ℚ) / 100 else 0)
      + listSubtotal cart * (8 / 100)) := by
  obtain rfl := postOrder_order_eq now d c payment orders cart o ho
  have ht : (ServerJs.newOrder now d c payment cart).totals = ServerJs.orderTotals cart := rfl
  have he := orderTotals_eq cart (listSubtotal cart)
    (by rw [subtotal_foldl cart hp 0, zero_add])
  rw [ht, he]
  exact ⟨rfl, rfl, rfl, rfl⟩

theorem c3_witness :
    (∀ it ∈ exampleCart, it.price.isSome) ∧
    ((ServerJs.postOrder 0 ("d") ("c") samplePayment [] exampleCart).order
       = some (ServerJs.newOrder 0 ("d") ("c") samplePayment exampleCart)) ∧
    (ServerJs.newOrder 0 ("d") ("c") samplePayment exampleCart).totals.subtotal = some 25 ∧
    (ServerJs.newOrder 0 ("d") ("c") samplePayment exampleCart).totals.shipping = 599 / 100 ∧
    (ServerJs.newOrder 0 ("d") ("c") samplePayment exampleCart).totals.tax = some 2 ∧
    (ServerJs.newOrder 0 ("d") ("c") samplePayment exampleCart).totals.total
      = some (3299 / 100) := by
  have h := c3_totals 0 ("d") ("c") samplePayment [] exampleCart
    (ServerJs.newOrder 0 ("d") ("c") samplePayment exampleCart) (by decide) rfl
  have hsub : listSubtotal exampleCart = 25 := by
    simp [listSubtotal, exampleCart]
    norm_num
  rw [hsub] at h
  exact ⟨by decide, rfl, h.1, h.2.1.trans (by norm_num), h.2.2.1.trans (by norm_num),
    h.2.2.2.trans (by norm_num)⟩

theorem updateFirst_append (pred : Product → Bool) (f : Product → Product) :
    ∀ (pre : List Product) (x : Product) (post : List Product),
      (∀ y ∈ pre, pred y = false) → pred x = true →
      updateFirst pred f (pre ++ x :: post) = some (pre ++ f x :: post) := by
  intro pre
  induction pre with
  | nil =>
    intro x post hpre hx
    show updateFirst pred f (x :: post) = _
    rw [updateFirst, if_pos hx]
    rfl
  | cons p ps ih =>
    intro x post hpre hx
    have hp : pred p = false := hpre p (List.mem_cons_self p ps)
    show updateFirst pred f (p :: (ps ++ x :: post)) = _
    rw [updateFirst, if_neg (by simp [hp]),
      ih x post (fun y hy => hpre y (List.mem_cons_of_mem p hy)) hx]
    rfl

/-- Joint decomposition of a successful `PUT /api/products/:id` in both
variants: the catalog splits at the first record whose id matches, and
each variant's result rewrites exactly that record with its own update
function. -/
theorem putProduct_both_eq (idParam : Int) (body : ProductBody) (files : List UploadedFile)
    (products r r' : List Product)
    (hS : ServerJs.putProduct idParam body files products = (200, r))
    (hP : Part000.putProduct idParam body files products = (200, r')) :
    ∃ pre x post, products = pre ++ x :: post ∧
      r = pre ++ ServerJs.updatedProduct body files x :: post ∧
      r' = pre ++ Part000.updatedProduct body files x :: post ∧
      (x.id == idParam) = true ∧ ∀ y ∈ pre, (y.id == idParam) = false := by
  unfold ServerJs.putProduct at hS
  cases hu : updateFirst (fun p => p.id == idParam) (ServerJs.updatedProduct body files)
      products with
  | none =>
    rw [hu] at hS
    have h9 : (404 : Nat) = 200 := congrArg Prod.fst hS
    exact absurd h9 (by decide)
  | some l =>
    rw [hu] at hS
    have hr : l = r := congrArg Prod.snd hS
    obtain ⟨pre, x, post, hprod, hl, hx, hpre⟩ := updateFirst_eq_some _ _ products l hu
    have hu2 : updateFirst (fun p => p.id == idParam) (Part000.updatedProduct body files)
        products = some (pre ++ Part000.updatedProduct body files x :: post) := by
      rw [hprod]
      exact updateFirst_append _ _ pre x post hpre hx
    unfold Part000.putProduct at hP
    rw [hu2] at hP
    have hr2 : pre ++ Part000.updatedProduct body files x :: post = r' :=
      congrArg Prod.snd hP
    exact ⟨pre, x, post, hprod, by rw [← hr, hl], hr2.symm, hx, hpre⟩

/-- C4 counterexample: updating an existing product that already has one
media entry while uploading one new file.  In `server.js` the stored
media list afterwards is the OLD entry followed by the new one — not
"exactly the MediaRefs built from the newly uploaded files" — and the
stored `image` is the old first url, not the first new MediaRef's url. -/
theorem c4_counterexample :
    (ServerJs.putProduct 7 emptyBody [sampleUpload] [prodWithMedia]).1 = 200 ∧
    (ServerJs.putProduct 7 emptyBody [sampleUpload] [prodWithMedia]).2.map Product.media
      = [[sampleMedia, ServerJs.mediaRefOfFile sampleUpload]] ∧
    ([sampleMedia, ServerJs.mediaRefOfFile sampleUpload]
      ≠ [ServerJs.mediaRefOfFile sampleUpload]) ∧
    (ServerJs.putProduct 7 emptyBody [sampleUpload] [prodWithMedia]).2.map Product.image
      = ["/uploads/old.jpg"] ∧
    ("/uploads/old.jpg" : String) ≠ (ServerJs.mediaRefOfFile sampleUpload).url := by
  exact ⟨rfl, by decide, by decide, by decide, by decide⟩

/-- C4 (amended): on a successful update of an existing product, the
`part_000` variant REPLACES the media list with the refs of the newly
uploaded files and recomputes `image` from the first new ref, whereas
the `server.js` variant APPENDS the new refs to the existing media list
(its `image` then comes from the combined list); when no files are
uploaded, both variants leave media unchanged and image unchanged (for
`server.js`, given the stored image invariant). -/
theorem c4_media_semantics (idParam : Int) (body : ProductBody) (files : List UploadedFile)
    (products r r' : List Product)
    (hS : ServerJs.putProduct idParam body files products = (200, r))
    (hP : Part000.putProduct idParam body files products = (200, r')) :
    ∃ pre old post, products = pre ++ old :: post ∧
      r = pre ++ ServerJs.updatedProduct body files old :: post ∧
      r' = pre ++ Part000.updatedProduct body files old :: post ∧
      (ServerJs.updatedProduct body files old).media
        = old.media ++ files.map ServerJs.mediaRefOfFile ∧
      (∀ f fs, files = f :: fs →
        (Part000.updatedProduct body files old).media = files.map Part000.mediaRefOfFile ∧
        (Part000.updatedProduct body files old).image = (Part000.mediaRefOfFile f).url) ∧
      (files = [] →
        (ServerJs.updatedProduct body files old).media = old.media ∧
        (∀ ph, imageInv ph old → (ServerJs.updatedProduct body files old).image = old.image) ∧
        (Part000.updatedProduct body files old).media = old.media ∧
        (Part000.updatedProduct body files old).image = old.image) := by
  obtain ⟨pre, x, post, hprod, hr, hr2, hx, hpre⟩ :=
    putProduct_both_eq idParam body files products r r' hS hP
  refine ⟨pre, x, post, hprod, hr, hr2, rfl, ?_, ?_⟩
  · intro f fs hf
    subst hf
    exact ⟨rfl, rfl⟩
  · intro hf
    subst hf
    refine ⟨by simp [ServerJs.updatedProduct], ?_, rfl, rfl⟩
    intro ph hinv
    show (match x.media ++ List.map ServerJs.mediaRefOfFile [] with
          | [] => x.image
          | m :: _ => m.url) = x.image
    cases hm : x.media with
    | nil => rfl
    | cons m ms =>
      show m.url = x.image
      rw [hinv]
      simp [expectedImage, hm]

theorem c4_witness :
    (ServerJs.putProduct 7 emptyBody [sampleUpload] [prodWithMedia, prodOther]
      = (200, [ServerJs.updatedProduct emptyBody [sampleUpload] prodWithMedia, prodOther])) ∧
    (Part000.putProduct 7 emptyBody [sampleUpload] [prodWithMedia, prodOther]
      = (200, [Part000.updatedProduct emptyBody [sampleUpload] prodWithMedia, prodOther])) ∧
    (∃ pre old post, ([prodWithMedia, prodOther] : List Product) = pre ++ old :: post ∧
      [ServerJs.updatedProduct emptyBody [sampleUpload] prodWithMedia, prodOther]
        = pre ++ ServerJs.updatedProduct emptyBody [sampleUpload] old :: post ∧
      [Part000.updatedProduct emptyBody [sampleUpload] prodWithMedia, prodOther]
        = pre ++ Part000.updatedProduct emptyBody [sampleUpload] old :: post ∧
      (ServerJs.updatedProduct emptyBody [sampleUpload] old).media
        = old.media ++ [sampleUpload].map ServerJs.mediaRefOfFile ∧
      (∀ f fs, ([sampleUpload] : List UploadedFile) = f :: fs →
        (Part000.updatedProduct emptyBody [sampleUpload] old).media
          = [sampleUpload].map Part000.mediaRefOfFile ∧
        (Part000.updatedProduct emptyBody [sampleUpload] old).image
          = (Part000.mediaRefOfFile f).url) ∧
      (([sampleUpload] : List UploadedFile) = [] →
        (ServerJs.updatedProduct emptyBody [sampleUpload] old).media = old.media ∧
        (∀ ph, imageInv ph old →
          (ServerJs.updatedProduct emptyBody [sampleUpload] old).image = old.image) ∧
        (Part000.updatedProduct emptyBody [sampleUpload] old).media = old.media ∧
        (Part000.updatedProduct emptyBody [sampleUpload] old).image = old.image)) :=
  ⟨rfl, rfl,
    c4_media_semantics 7 emptyBody [sampleUpload] [prodWithMedia, prodOther] _ _ rfl rfl⟩

/-- C5 counterexample: `part_000`'s create with no uploaded files stores
a product whose media list is empty and whose `image` is the empty
string — not a placeholder URL (in particular not the
"/img/placeholder.jpg" placeholder the other variant uses). -/
theorem c5_counterexample :
    (Part000.postProduct 0 emptyBody [] []).2.map Product.media = [[]] ∧
    (Part000.postProduct 0 emptyBody [] []).2.map Product.image = [""] ∧
    ("" : String) ≠ "/img/placeholder.jpg" :=
  ⟨rfl, rfl, by decide⟩

/-- C5 (amended): every product stored by create satisfies: `image`
equals `media[0].url` when `media` is non-empty, and otherwise equals
the variant's default image value — "/img/placeholder.jpg" in
`server.js`, but the empty string (not a placeholder URL) in `part_000`
— and each variant's update preserves its invariant. -/
theorem c5_image_invariant :
    (∀ now body files, imageInv ("/img/placeholder.jpg") (ServerJs.newProduct now body files)) ∧
    (∀ body files old, imageInv ("/img/placeholder.jpg") old →
      imageInv ("/img/placeholder.jpg") (ServerJs.updatedProduct body files old)) ∧
    (∀ now body files, imageInv ("") (Part000.newProduct now body files)) ∧
    (∀ ph body files old, imageInv ph old →
      imageInv ph (Part000.updatedProduct body files old)) := by
  refine ⟨?_, ?_, ?_, ?_⟩
  · intro now body files
    cases files with
    | nil => rfl
    | cons f fs => rfl
  · intro body files old hinv
    simp only [imageInv, ServerJs.updatedProduct, expectedImage]
    cases hq : old.media ++ List.map ServerJs.mediaRefOfFile files with
    | nil =>
      have hone : old.media = [] := (List.append_eq_nil.mp hq).1
      show old.image = "/img/placeholder.jpg"
      rw [hinv]
      simp [expectedImage, hone]
    | cons m ms => rfl
  · intro now body files
    cases files with
    | nil => rfl
    | cons f fs => rfl
  · intro ph body files old hinv
    cases files with
    | nil => exact hinv
    | cons f fs => rfl

theorem c5_witness :
    imageInv ("/img/placeholder.jpg") prodOther ∧
    imageInv ("/img/placeholder.jpg") (ServerJs.updatedProduct emptyBody [sampleUpload] prodOther) ∧
    imageInv ("") (Part000.newProduct 0 emptyBody []) :=
  ⟨by decide, c5_image_invariant.2.1 emptyBody [sampleUpload] prodOther (by decide),
    c5_image_invariant.2.2.1 0 emptyBody []⟩

/-- C8 counterexample: a create request with name, price and category
all absent still succeeds with 201 and grows the store by one product in
both variants — there is no 400 validation failure and the store IS
modified, contrary to the claim. -/
theorem c8_counterexample :
    emptyBody.name = none ∧ emptyBody.price = none ∧ emptyBody.category = none ∧
    (ServerJs.postProduct 0 emptyBody [] []).1 = 201 ∧
    (ServerJs.postProduct 0 emptyBody [] []).1 ≠ 400 ∧
    (ServerJs.postProduct 0 emptyBody [] []).2.length = 1 ∧
    (Part000.postProduct 0 emptyBody [] []).1 = 201 ∧
    (Part000.postProduct 0 emptyBody [] []).1 ≠ 400 ∧
    (Part000.postProduct 0 emptyBody [] []).2.length = 1 :=
  ⟨rfl, rfl, rfl, rfl, by decide, rfl, rfl, by decide, rfl⟩

/-- C8 (amended): neither variant in the repository's sources validates
the required fields: create always answers 201 and appends the built
product, even when name, price, or category is absent (the absent
fields are stored as undefined/NaN); the spec's validating "strict
variant" is not among the source files. -/
theorem c8_no_validation (now : Int) (body : ProductBody) (files : List UploadedFile)
    (products : List Product)
    (_habsent : body.name = none ∨ body.price = none ∨ body.category = none) :
    ServerJs.postProduct now body files products
      = (201, products ++ [ServerJs.newProduct now body files]) ∧
    Part000.postProduct now body files products
      = (201, products ++ [Part000.newProduct now body files]) :=
  ⟨rfl, rfl⟩

theorem c8_witness :
    (emptyBody.name = none ∨ emptyBody.price = none ∨ emptyBody.category = none) ∧
    (ServerJs.postProduct 0 emptyBody [] []
      = (201, [] ++ [ServerJs.newProduct 0 emptyBody []]) ∧
     Part000.postProduct 0 emptyBody [] []
      = (201, [] ++ [Part000.newProduct 0 emptyBody []])) :=
  ⟨Or.inl rfl, c8_no_validation 0 emptyBody [] [] (Or.inl rfl)⟩

theorem getElem?_middle_frame (pre post : List Product) (a b : Product) :
    ∀ j : Nat, j ≠ pre.length → (pre ++ b :: post)[j]? = (pre ++ a :: post)[j]? := by
  intro j hj
  rw [List.getElem?_append, List.getElem?_append]
  by_cases h : j < pre.length
  · rw [if_pos h, if_pos h]
  · rw [if_neg h, if_neg h]
    obtain ⟨k, hk⟩ : ∃ k, j - pre.length = k + 1 := ⟨j - pre.length - 1, by omega⟩
    rw [hk]
    rfl

/-- C10: a successful update (in either variant) rewrites exactly the
first record whose id matches: the updated record keeps the stored
product's `id` and `reviews`, and every record whose id differs from the
target id is unchanged at its position. -/
theorem c10_update_frame (idParam : Int) (body : ProductBody) (files : List UploadedFile)
    (products r r' : List Product)
    (hS : ServerJs.putProduct idParam body files products = (200, r))
    (hP : Part000.putProduct idParam body files products = (200, r')) :
    (∃ pre old post, products = pre ++ old :: post ∧
      r = pre ++ ServerJs.updatedProduct body files old :: post ∧
      r' = pre ++ Part000.updatedProduct body files old :: post ∧
      (ServerJs.updatedProduct body files old).id = old.id ∧
      (ServerJs.updatedProduct body files old).reviews = old.reviews ∧
      (Part000.updatedProduct body files old).id = old.id ∧
      (Part000.updatedProduct body files old).reviews = old.reviews) ∧
    (∀ (j : Nat) (p' : Product), products[j]? = some p' → p'.id ≠ idParam →
      r[j]? = some p' ∧ r'[j]? = some p') := by
  obtain ⟨pre, x, post, hprod, hr, hr2, hx, hpre⟩ :=
    putProduct_both_eq idParam body files products r r' hS hP
  have hxid : x.id = idParam := by simpa using hx
  constructor
  · refine ⟨pre, x, post, hprod, hr, hr2, rfl, rfl, ?_, ?_⟩
    · cases files with
      | nil => rfl
      | cons f fs => rfl
    · cases files with
      | nil => rfl
      | cons f fs => rfl
  · intro j p' hj hid
    have hjne : j ≠ pre.length := by
      intro he
      subst he
      rw [hprod, List.getElem?_append, if_neg (lt_irrefl pre.length), Nat.sub_self,
        List.getElem?_cons_zero] at hj
      exact hid (Option.some.inj hj ▸ hxid)
    rw [hprod] at hj
    constructor
    · rw [hr, getElem?_middle_frame pre post x (ServerJs.updatedProduct body files x) j hjne]
      exact hj
    · rw [hr2, getElem?_middle_frame pre post x (Part000.updatedProduct body files x) j hjne]
      exact hj

theorem c10_witness :
    (ServerJs.putProduct 7 emptyBody [] [prodWithMedia, prodOther]
      = (200, [ServerJs.updatedProduct emptyBody [] prodWithMedia, prodOther])) ∧
    (Part000.putProduct 7 emptyBody [] [prodWithMedia, prodOther]
      = (200, [Part000.updatedProduct emptyBody [] prodWithMedia, prodOther])) ∧
    ((∃ pre old post, ([prodWithMedia, prodOther] : List Product) = pre ++ old :: post ∧
      [ServerJs.updatedProduct emptyBody [] prodWithMedia, prodOther]
        = pre ++ ServerJs.updatedProduct emptyBody [] old :: post ∧
      [Part000.updatedProduct emptyBody [] prodWithMedia, prodOther]
        = pre ++ Part000.updatedProduct emptyBody [] old :: post ∧
      (ServerJs.updatedProduct emptyBody [] old).id = old.id ∧
      (ServerJs.updatedProduct emptyBody [] old).reviews = old.reviews ∧
      (Part000.updatedProduct emptyBody [] old).id = old.id ∧
      (Part000.updatedProduct emptyBody [] old).reviews = old.reviews) ∧
    (∀ (j : Nat) (p' : Product), ([prodWithMedia, prodOther] : List Product)[j]? = some p' → p'.id ≠ 7 →
      [ServerJs.updatedProduct emptyBody [] prodWithMedia, prodOther][j]? = some p' ∧
      [Part000.updatedProduct emptyBody [] prodWithMedia, prodOther][j]? = some p')) :=
  ⟨rfl, rfl, c10_update_frame 7 emptyBody [] [prodWithMedia, prodOther] _ _ rfl rfl⟩

end Fashonhub
